import Mathlib

/-!
Verification of the envirofacts-mcp aggregation / query-building / retry /
distance-filtering pipeline.

The Python source is shallowly embedded:
* Python floats are modelled as exact rationals (`ℚ`); the trigonometric
  helpers (`math.cos`, `math.pi`, haversine) are passed as explicit function
  parameters, since their values never influence the structural properties
  stated here beyond simple sign facts that hold for the IEEE-754 versions.
* Python `dict` (insertion-ordered) is modelled as an association list with
  update-in-place / append-new semantics (`dictSet`).
* `Optional[T]` fields are `Option`, exceptions are `Except`.
* `asyncio.gather(..., return_exceptions=True)` branch outcomes are passed in
  as `Except` values.
-/

namespace Envirofacts

/-- Model of `src/models/common.py` `Coordinates` (pydantic ranges are
checked by the callers that matter here). -/
structure Coordinates where
  latitude : ℚ
  longitude : ℚ
deriving DecidableEq, Repr

/-- Model of `src/models/facility.py` `FacilityType`. -/
inductive FacilityType where
  | TRI | RCRA | SDWIS | FRS | ICIS | GHG | NEI | SEMS
deriving DecidableEq, Repr

/-- Python enum member `.value` string of a `FacilityType`. -/
def FacilityType.value : FacilityType → String
  | .TRI => "TRI"
  | .RCRA => "RCRA"
  | .SDWIS => "SDWIS"
  | .FRS => "FRS"
  | .ICIS => "ICIS"
  | .GHG => "GHG"
  | .NEI => "NEI"
  | .SEMS => "SEMS"

/-- Model of `src/models/facility.py` `FacilityInfo`. -/
structure FacilityInfo where
  registry_id : String
  name : String
  address : Option String := none
  city : Option String := none
  state : Option String := none
  zip_code : Option String := none
  coordinates : Option Coordinates := none
  programs : List FacilityType := []
  naics_code : Option String := none
  naics_description : Option String := none
  distance_miles : Option ℚ := none
  status : Option String := none
deriving DecidableEq, Repr

/-- Model of `src/models/water.py` `WaterSystem`. -/
structure WaterSystem where
  system_id : String
  name : String
  population_served : Option ℕ := none
  coordinates : Option Coordinates := none
  state : Option String := none
  county : Option String := none
  system_type : Option String := none
  primary_source : Option String := none
  distance_miles : Option ℚ := none
deriving DecidableEq, Repr

/-- Model of `src/models/water.py` `WaterViolation` (dates kept as strings;
only `is_current` is inspected by the code verified here). -/
structure WaterViolation where
  violation_id : String
  system_id : String
  system_name : String
  violation_type : String
  contaminant : Option String := none
  violation_date : Option String := none
  compliance_status : Option String := none
  is_current : Bool := false
  enforcement_action : Option String := none
  population_affected : Option ℕ := none
deriving DecidableEq, Repr

/-- Model of `src/models/releases.py` `ChemicalRelease`. -/
structure ChemicalRelease where
  facility_id : String
  facility_name : String
  chemical_name : String
  cas_number : Option String := none
  reporting_year : Int
  air_release : Option ℚ := none
  water_release : Option ℚ := none
  land_release : Option ℚ := none
  underground_injection : Option ℚ := none
  release_type : Option String := none
  units : String := "pounds"
deriving DecidableEq, Repr

/-- Model of the `ChemicalRelease.total_release` property: sum of the present
medium quantities, absent treated as 0. -/
def ChemicalRelease.total_release (r : ChemicalRelease) : ℚ :=
  r.air_release.getD 0 + r.water_release.getD 0 + r.land_release.getD 0
    + r.underground_injection.getD 0

/-- Model of `src/models/releases.py` `ReleaseSummary`. -/
structure ReleaseSummary where
  total_facilities : ℕ
  total_chemicals : ℕ
  total_releases : ℚ
  air_releases : ℚ := 0
  water_releases : ℚ := 0
  land_releases : ℚ := 0
  underground_injections : ℚ := 0
  top_chemicals : List (String × ℚ) := []
  reporting_year : Int
deriving DecidableEq, Repr

/-! ## Query URL builder (`src/client/base.py`, `EPAClient._build_query_url`) -/

/-- Python `'/'.join(parts)`. -/
def joinSlash : List String → String
  | [] => ""
  | [x] => x
  | x :: y :: xs => x ++ "/" ++ joinSlash (y :: xs)

/-- Model of `EPAClient._build_query_url`.  `filters` is the Python dict
`{column: {operator: value}}` in insertion order; filter values have already
been through `str(...)`.  `base` is `self.base_url`. -/
def build_query_url (base table : String)
    (filters : List (String × List (String × String)))
    (joins : List String) (sort : Option String)
    (limit offset : ℕ) (format_type : String) : String :=
  let url_parts := [base, table]
    ++ filters.foldl (fun acc cf =>
        acc ++ cf.2.foldl (fun acc2 ov => acc2 ++ [cf.1, ov.1, ov.2]) []) []
    ++ joins.foldl (fun acc j => acc ++ ["join", j]) []
    ++ [toString (offset + 1) ++ ":" ++ toString (offset + limit)]
    ++ sort.toList
    ++ [format_type]
  joinSlash url_parts

lemma inner_foldl_eq_flatMap (c : String) (conds : List (String × String))
    (acc : List String) :
    conds.foldl (fun acc2 ov => acc2 ++ [c, ov.1, ov.2]) acc
      = acc ++ conds.flatMap (fun ov => [c, ov.1, ov.2]) := by
  induction conds generalizing acc with
  | nil => simp
  | cons h t ih => simp [ih, List.flatMap_cons]

lemma filters_foldl_eq_flatMap (filters : List (String × List (String × String)))
    (acc : List String) :
    filters.foldl (fun acc cf =>
        acc ++ cf.2.foldl (fun acc2 ov => acc2 ++ [cf.1, ov.1, ov.2]) []) acc
      = acc ++ filters.flatMap (fun cf => cf.2.flatMap (fun ov => [cf.1, ov.1, ov.2])) := by
  induction filters generalizing acc with
  | nil => simp
  | cons h t ih =>
      rw [List.foldl_cons, ih, inner_foldl_eq_flatMap]
      simp [List.flatMap_cons]

lemma joins_foldl_eq_flatMap (joins : List String) (acc : List String) :
    joins.foldl (fun acc j => acc ++ ["join", j]) acc
      = acc ++ joins.flatMap (fun j => ["join", j]) := by
  induction joins generalizing acc with
  | nil => simp
  | cons h t ih => simp [ih, List.flatMap_cons]

lemma joinSlash_cons (x : String) (y : String) (xs : List String) :
    joinSlash (x :: y :: xs) = x ++ "/" ++ joinSlash (y :: xs) := rfl

/-- C4: the concrete query-builder scenario yields
`<base>/frs.frs_facilities/state_abbr/equals/CA/1:10/JSON`, and in general the
URL is the `/`-join of base, table, one column/operator/value triplet per
operator in map insertion order, the join segments, the pagination segment
`<offset+1>:<offset+limit>`, the optional sort column and the format. -/
theorem build_query_url_spec (base table : String)
    (filters : List (String × List (String × String))) (joins : List String)
    (sort : Option String) (limit offset : ℕ) (format_type : String) :
    build_query_url base "frs.frs_facilities" [("state_abbr", [("equals", "CA")])]
        [] none 10 0 "JSON"
      = base ++ "/frs.frs_facilities/state_abbr/equals/CA/1:10/JSON" ∧
    build_query_url base table filters joins sort limit offset format_type
      = joinSlash ([base, table]
          ++ filters.flatMap (fun cf => cf.2.flatMap (fun ov => [cf.1, ov.1, ov.2]))
          ++ joins.flatMap (fun j => ["join", j])
          ++ [toString (offset + 1) ++ ":" ++ toString (offset + limit)]
          ++ sort.toList
          ++ [format_type]) := by
  have gen : ∀ (b t : String) (fs : List (String × List (String × String)))
      (js : List String) (so : Option String) (li off : ℕ) (fm : String),
      build_query_url b t fs js so li off fm
        = joinSlash ([b, t]
            ++ fs.flatMap (fun cf => cf.2.flatMap (fun ov => [cf.1, ov.1, ov.2]))
            ++ js.flatMap (fun j => ["join", j])
            ++ [toString (off + 1) ++ ":" ++ toString (off + li)]
            ++ so.toList
            ++ [fm]) := by
    intro b t fs js so li off fm
    unfold build_query_url
    rw [filters_foldl_eq_flatMap, joins_foldl_eq_flatMap]
    simp
  refine ⟨?_, gen base table filters joins sort limit offset format_type⟩
  rw [gen]
  show joinSlash (base :: ["frs.frs_facilities", "state_abbr", "equals", "CA", "1:10", "JSON"]) = _
  rw [joinSlash_cons, String.append_assoc]
  rfl

/-! ## Ordered-dict model (Python `dict` preserves insertion order) -/

/-- Python `m[k] = v` on an insertion-ordered dict: replace the value at the
key's existing position, or append a new entry at the end. -/
def dictSet {κ α : Type} [DecidableEq κ] : List (κ × α) → κ → α → List (κ × α)
  | [], k, v => [(k, v)]
  | e :: rest, k, v => if e.1 = k then (k, v) :: rest else e :: dictSet rest k v

/-- Python `m.get(k)` / `k in m`: first (unique) entry with the key. -/
def dictGet {κ α : Type} [DecidableEq κ] : List (κ × α) → κ → Option α
  | [], _ => none
  | e :: rest, k => if e.1 = k then some e.2 else dictGet rest k

/-- Python `m[k] += v` on a `defaultdict` with zero default. -/
def dictAdd {κ : Type} [DecidableEq κ] (m : List (κ × ℚ)) (k : κ) (v : ℚ) :
    List (κ × ℚ) :=
  dictSet m k ((dictGet m k).getD 0 + v)

/-- Python `Counter(l)`: multiplicity per key, keys in first-occurrence order. -/
def counterOf {κ : Type} [DecidableEq κ] (l : List κ) : List (κ × ℚ) :=
  l.foldl (fun m k => dictAdd m k 1) []

/-- Python `Counter(m).most_common(1)[0][0]`-style selection: the key with the
largest count, the first-encountered key winning ties (`heapq.nlargest` is
stable in iteration order). -/
def firstMaxKey {κ : Type} : List (κ × ℚ) → Option κ
  | [] => none
  | e :: rest =>
      some (rest.foldl (fun best kv => if kv.2 > best.2 then kv else best) e).1

/-! ## Release summarization (`src/utils/aggregation.py`, `summarize_releases`) -/

/-- Python `sorted(items, key=count, reverse=True)` as used by
`Counter.most_common(n)` (stable descending order by value). -/
def sortByValueDesc {κ : Type} (l : List (κ × ℚ)) : List (κ × ℚ) :=
  l.insertionSort (fun a b => b.2 ≤ a.2)

/-- Model of `summarize_releases`.  Python floats are exact rationals here, so
the floating-tolerance caveats of the spec become exact equalities. -/
def summarize_releases (releases : List ChemicalRelease) : ReleaseSummary :=
  if releases = [] then
    { total_facilities := 0, total_chemicals := 0, total_releases := 0,
      reporting_year := 2023 }
  else
    let air_total := releases.foldl (fun a r => a + r.air_release.getD 0) 0
    let water_total := releases.foldl (fun a r => a + r.water_release.getD 0) 0
    let land_total := releases.foldl (fun a r => a + r.land_release.getD 0) 0
    let underground_total :=
      releases.foldl (fun a r => a + r.underground_injection.getD 0) 0
    let chemical_totals :=
      releases.foldl (fun m r => dictAdd m r.chemical_name r.total_release) []
    { total_facilities := (releases.map (·.facility_id)).dedup.length,
      total_chemicals := (releases.map (·.chemical_name)).dedup.length,
      total_releases := air_total + water_total + land_total + underground_total,
      air_releases := air_total,
      water_releases := water_total,
      land_releases := land_total,
      underground_injections := underground_total,
      top_chemicals := (sortByValueDesc chemical_totals).take 10,
      reporting_year :=
        (firstMaxKey (counterOf (releases.map (·.reporting_year)))).getD 2023 }

lemma foldl_add_eq_sum {α : Type} (g : α → ℚ) (c : ℚ) (l : List α) :
    l.foldl (fun a x => a + g x) c = c + (l.map g).sum := by
  induction l generalizing c with
  | nil => simp
  | cons h t ih => simp [ih]; ring

lemma sum_total_release (releases : List ChemicalRelease) :
    (releases.map ChemicalRelease.total_release).sum
      = (releases.map fun r => r.air_release.getD 0).sum
        + (releases.map fun r => r.water_release.getD 0).sum
        + (releases.map fun r => r.land_release.getD 0).sum
        + (releases.map fun r => r.underground_injection.getD 0).sum := by
  induction releases with
  | nil => simp
  | cons h t ih => simp [ChemicalRelease.total_release, ih]; ring

/-- C6: `summarize_releases []` has zero facility/chemical/release totals and
the default reporting year 2023; for every non-empty input the returned
`total_releases` is the sum of the four medium totals, each medium total being
the sum over all releases of that medium's quantity with absent treated as 0
(exact rational arithmetic models the floating-point sums). -/
theorem summarize_releases_spec :
    ((summarize_releases []).total_facilities = 0 ∧
     (summarize_releases []).total_chemicals = 0 ∧
     (summarize_releases []).total_releases = 0 ∧
     (summarize_releases []).reporting_year = 2023) ∧
    ∀ releases : List ChemicalRelease, releases ≠ [] →
      ((summarize_releases releases).air_releases
          = (releases.map fun r => r.air_release.getD 0).sum ∧
       (summarize_releases releases).water_releases
          = (releases.map fun r => r.water_release.getD 0).sum ∧
       (summarize_releases releases).land_releases
          = (releases.map fun r => r.land_release.getD 0).sum ∧
       (summarize_releases releases).underground_injections
          = (releases.map fun r => r.underground_injection.getD 0).sum) ∧
      (summarize_releases releases).total_releases
        = (releases.map fun r => r.air_release.getD 0).sum
          + (releases.map fun r => r.water_release.getD 0).sum
          + (releases.map fun r => r.land_release.getD 0).sum
          + (releases.map fun r => r.underground_injection.getD 0).sum ∧
      (summarize_releases releases).total_releases
        = (releases.map ChemicalRelease.total_release).sum := by
  refine ⟨by simp [summarize_releases], ?_⟩
  intro releases hne
  simp only [summarize_releases, if_neg hne]
  refine ⟨⟨?_, ?_, ?_, ?_⟩, ?_, ?_⟩ <;>
    simp [foldl_add_eq_sum, sum_total_release]

/-- Concrete sample release used by the C6 witness. -/
def sampleRelease : ChemicalRelease :=
  { facility_id := "F1", facility_name := "Plant A", chemical_name := "Benzene",
    reporting_year := 2023, air_release := some 10, water_release := some 20,
    land_release := none, underground_injection := some 30 }

/-- Witness for C6 at the one-element list `[sampleRelease]`. -/
theorem summarize_releases_spec_witness :
    ([sampleRelease] : List ChemicalRelease) ≠ [] ∧
    (summarize_releases [sampleRelease]).total_releases = 60 := by
  refine ⟨by decide, ?_⟩
  have h := (summarize_releases_spec.2 [sampleRelease] (by decide)).2.2
  rw [h]
  norm_num [sampleRelease, ChemicalRelease.total_release]

/-! ## Bounding box (`src/utils/distance.py`, `calculate_bounding_box`)

The source computes with IEEE-754 binary64 (Python `float`) arithmetic, and
that matters: for small positive radii the computed `lat_delta` falls below
half an ulp of the latitude, `lat ± lat_delta` both round back to `lat`, and
the `BoundingBox` model validator raises.  The model below therefore
implements binary64 values exactly as integer pairs `m * 2^e`, each
operation rounding its result to 53 significant bits, round-to-nearest,
ties-to-even — the IEEE-754 rule.  Every value arising in the verified
computation is normal (far from overflow and subnormal range), so exponent
clamping is not modelled. -/

/-- A binary64 value, represented exactly as `m * 2^e`.  Results of the
arithmetic operations below are kept canonical (odd significand, or `⟨0, 0⟩`),
so equal values have equal representations. -/
structure F64 where
  m : ℤ
  e : ℤ
deriving DecidableEq, Repr

/-- Number of bits of `n` (fuel-driven structural recursion). -/
def bitLen : ℕ → ℕ → ℕ
  | 0, _ => 0
  | fuel + 1, n => if n = 0 then 0 else bitLen fuel (n / 2) + 1

/-- Strip trailing zero bits from a significand, adjusting the exponent. -/
def canonNat : ℕ → ℕ → ℤ → ℕ × ℤ
  | 0, n, e => (n, e)
  | fuel + 1, n, e =>
      if n ≠ 0 ∧ n % 2 = 0 then canonNat fuel (n / 2) (e + 1) else (n, e)

/-- Reattach a sign to a natural significand. -/
def signedM (neg : Bool) (n : ℕ) : ℤ := if neg then -(n : ℤ) else n

/-- Round the exact value `m * 2^e` to 53 significant bits, round-to-nearest
with ties to even — the binary64 rounding of an exact intermediate result. -/
def roundSig (m : ℤ) (e : ℤ) : F64 :=
  if m = 0 then ⟨0, 0⟩
  else
    let n := m.natAbs
    let L := bitLen 4096 n
    if L ≤ 53 then
      let c := canonNat 4096 n e
      ⟨signedM (m < 0) c.1, c.2⟩
    else
      let k := L - 53
      let q := n / 2 ^ k
      let r := n % 2 ^ k
      let half := 2 ^ (k - 1)
      let q2 := if half < r ∨ (r = half ∧ q % 2 = 1) then q + 1 else q
      let c := canonNat 4096 q2 (e + k)
      ⟨signedM (m < 0) c.1, c.2⟩

/-- Binary64 addition: align exponents exactly, add, round. -/
def flAdd (x y : F64) : F64 :=
  if y.e ≤ x.e then roundSig (x.m * 2 ^ (x.e - y.e).toNat + y.m) y.e
  else roundSig (y.m * 2 ^ (y.e - x.e).toNat + x.m) x.e

/-- Binary64 negation (exact). -/
def flNeg (x : F64) : F64 := ⟨-x.m, x.e⟩

/-- Binary64 subtraction. -/
def flSub (x y : F64) : F64 := flAdd x (flNeg y)

/-- Binary64 multiplication: exact product, then round. -/
def flMul (x y : F64) : F64 := roundSig (x.m * y.m) (x.e + y.e)

/-- Binary64 division: compute a 55-bit quotient, fold the remainder into a
sticky bit, then round. -/
def flDiv (x y : F64) : F64 :=
  if x.m = 0 ∨ y.m = 0 then ⟨0, 0⟩
  else
    let n1 := x.m.natAbs
    let n2 := y.m.natAbs
    let sh := 55 + bitLen 4096 n2 - bitLen 4096 n1
    let q := n1 * 2 ^ sh / n2
    let r := n1 * 2 ^ sh % n2
    let neg := (decide (x.m < 0)) != (decide (y.m < 0))
    if r = 0 then roundSig (signedM neg q) (x.e - y.e - sh)
    else roundSig (signedM neg (2 * q + 1)) (x.e - y.e - sh - 1)

/-- Value comparison `x <= y` on binary64 representations. -/
def f64le (x y : F64) : Bool :=
  if x.e ≤ y.e then decide (x.m ≤ y.m * 2 ^ (y.e - x.e).toNat)
  else decide (x.m * 2 ^ (x.e - y.e).toNat ≤ y.m)

/-- Value comparison `x < y` on binary64 representations. -/
def f64lt (x y : F64) : Bool :=
  if x.e ≤ y.e then decide (x.m < y.m * 2 ^ (y.e - x.e).toNat)
  else decide (x.m * 2 ^ (x.e - y.e).toNat < y.m)

/-- Python `max(a, b)` (returns the first argument on ties). -/
def f64max (a b : F64) : F64 := if f64le b a then a else b

/-- Python `min(a, b)` (returns the first argument on ties). -/
def f64min (a b : F64) : F64 := if f64le a b then a else b

/-- The exact binary64 value of `math.pi`:
`3.141592653589793 = 884279719003555 * 2^-48`. -/
def piF64 : F64 := ⟨884279719003555, -48⟩

/-- Model of `src/models/common.py` `BoundingBox` over binary64 values. -/
structure BoundingBox where
  min_latitude : F64
  max_latitude : F64
  min_longitude : F64
  max_longitude : F64
deriving DecidableEq, Repr

/-- Model of pydantic validation when constructing a `BoundingBox`: the
`ge`/`le` field constraints, then the `validate_bounds` model validator,
which raises `max_latitude must be greater than min_latitude` when
`max_latitude <= min_latitude` (checked before the longitude axis);
construction raises (here: `Except.error`) on the first failure. -/
def mkBoundingBox (minLat maxLat minLon maxLon : F64) :
    Except String BoundingBox :=
  if ¬(f64le ⟨-90, 0⟩ minLat ∧ f64le minLat ⟨90, 0⟩) then
    .error "min_latitude out of range"
  else if ¬(f64le ⟨-90, 0⟩ maxLat ∧ f64le maxLat ⟨90, 0⟩) then
    .error "max_latitude out of range"
  else if ¬(f64le ⟨-180, 0⟩ minLon ∧ f64le minLon ⟨180, 0⟩) then
    .error "min_longitude out of range"
  else if ¬(f64le ⟨-180, 0⟩ maxLon ∧ f64le maxLon ⟨180, 0⟩) then
    .error "max_longitude out of range"
  else if f64le maxLat minLat then
    .error "max_latitude must be greater than min_latitude"
  else if f64le maxLon minLon then
    .error "max_longitude must be greater than min_longitude"
  else .ok ⟨minLat, maxLat, minLon, maxLon⟩

/-- Model of `calculate_bounding_box` over binary64 arithmetic, following the
source expression by expression (left-associated, `180 / math.pi` recomputed
as written).  `cosRadLat` is the binary64 value of
`math.cos(math.radians(lat))` for the given latitude, passed in as a
parameter so the trigonometry itself stays outside the model. -/
def calculate_bounding_box (cosRadLat : F64) (lat lon radius_miles : F64) :
    Except String BoundingBox :=
  if ¬(f64le ⟨-90, 0⟩ lat ∧ f64le lat ⟨90, 0⟩) then .error "Invalid latitude"
  else if ¬(f64le ⟨-180, 0⟩ lon ∧ f64le lon ⟨180, 0⟩) then
    .error "Invalid longitude"
  else if f64le radius_miles ⟨0, 0⟩ then .error "Radius must be positive"
  else
    let earth_radius_miles : F64 := ⟨3959, 0⟩
    let lat_delta := flMul (flDiv radius_miles earth_radius_miles)
      (flDiv ⟨180, 0⟩ piF64)
    let lon_delta := flMul (flDiv radius_miles
      (flMul earth_radius_miles cosRadLat)) (flDiv ⟨180, 0⟩ piF64)
    let min_lat := f64max (flSub lat lat_delta) ⟨-90, 0⟩
    let max_lat := f64min (flAdd lat lat_delta) ⟨90, 0⟩
    let min_lon := f64max (flSub lon lon_delta) ⟨-180, 0⟩
    let max_lon := f64min (flAdd lon lon_delta) ⟨180, 0⟩
    mkBoundingBox min_lat max_lat min_lon max_lon

/-- The exact binary64 value of the Python literal `1e-14`:
`6338253001141147 * 2^-99`. -/
def r1em14 : F64 := ⟨6338253001141147, -99⟩

/-- The exact binary64 value of `math.cos(math.radians(45.0))`:
`0.7071067811865476 = 6369051672525773 * 2^-53`. -/
def cos45F64 : F64 := ⟨6369051672525773, -53⟩

set_option maxRecDepth 100000 in
/-- C7 evaluated at the failing input (latitude 45, longitude 0, radius
`1e-14 > 0`): the binary64 `lat_delta` is strictly positive but about
`1.45e-16`, below half an ulp of `45.0` (`3.55e-15`), so `45.0 - lat_delta`
and `45.0 + lat_delta` both round to exactly `45.0`; `min_latitude ==
max_latitude` and the `BoundingBox` validator raises — `calculate_bounding_box`
FAILS on an input the claim says always succeeds.  The last three conjuncts
exhibit the rounding collapse itself. -/
theorem calculate_bounding_box_rounding_collapse :
    calculate_bounding_box cos45F64 ⟨45, 0⟩ ⟨0, 0⟩ r1em14
      = .error "max_latitude must be greater than min_latitude" ∧
    f64lt ⟨0, 0⟩ (flMul (flDiv r1em14 ⟨3959, 0⟩) (flDiv ⟨180, 0⟩ piF64)) = true ∧
    flSub ⟨45, 0⟩ (flMul (flDiv r1em14 ⟨3959, 0⟩) (flDiv ⟨180, 0⟩ piF64))
      = ⟨45, 0⟩ ∧
    flAdd ⟨45, 0⟩ (flMul (flDiv r1em14 ⟨3959, 0⟩) (flDiv ⟨180, 0⟩ piF64))
      = ⟨45, 0⟩ :=
  ⟨rfl, by decide, by decide, by decide⟩

/-! ## Facility search validation (`src/tools/search_facilities.py`) -/

/-- Python truthiness of an `Optional[str]` (`None` and `""` are falsy). -/
def truthy : Option String → Bool
  | none => false
  | some s => !(s == "")

/-- Python `''.join(c for c in s if c.isdigit())`. -/
def digitsOnly (s : String) : String := ⟨s.toList.filter Char.isDigit⟩

/-- Python `s.zfill(5)` for a digit string. -/
def zfill5 (s : String) : String := ⟨List.replicate (5 - s.length) '0' ++ s.toList⟩

/-- Cleaned parameters handed to `FRSClient.search_facilities`. -/
structure SearchQuery where
  facility_name : Option String
  naics_code : Option String
  state : Option String
  zip_code : Option String
  city : Option String
  limit : ℤ
deriving DecidableEq, Repr

/-- Outcomes of the `search_facilities` tool: a `ValueError` from parameter
validation, a wrapped failure from the client call, or the facility list. -/
inductive SearchOutcome where
  | valueError (msg : String)
  | failure (msg : String)
  | ok (facilities : List FacilityInfo)
deriving DecidableEq, Repr

/-- Model of the `search_facilities` tool.  The FRS client call is passed in
as `client`; validation happens before it is ever consulted, which the C8
theorem states by quantifying over every possible `client`. -/
def search_facilities (client : SearchQuery → Except String (List FacilityInfo))
    (facility_name naics_code state zip_code city : Option String)
    (limit : ℤ) : SearchOutcome :=
  if ¬(truthy facility_name ∨ truthy naics_code ∨ truthy state ∨
      truthy zip_code ∨ truthy city) then
    .valueError "At least one search parameter must be provided"
  else if ¬(1 ≤ limit ∧ limit ≤ 1000) then
    .valueError "Limit must be between 1 and 1000"
  else
    let fn := if truthy facility_name
      then some ((facility_name.getD "").trim) else facility_name
    if truthy facility_name ∧ ¬ truthy fn then
      .valueError "Facility name cannot be empty"
    else
      let nc := if truthy naics_code
        then some ((naics_code.getD "").trim) else naics_code
      if truthy naics_code ∧ ¬ truthy nc then
        .valueError "NAICS code cannot be empty"
      else
        let st := if truthy state
          then some ((state.getD "").trim.toUpper) else state
        if truthy state ∧ (st.getD "").length ≠ 2 then
          .valueError "State code must be 2 letters"
        else if truthy zip_code ∧
            (digitsOnly ((zip_code.getD "").trim)).length > 5 then
          .valueError "ZIP code must be 5 digits or less"
        else
          let zc := if truthy zip_code
            then some (zfill5 (digitsOnly ((zip_code.getD "").trim)))
            else zip_code
          let ct := if truthy city then some ((city.getD "").trim) else city
          if truthy city ∧ ¬ truthy ct then
            .valueError "City cannot be empty"
          else
            match client ⟨fn, nc, st, zc, ct, limit⟩ with
            | .ok l => .ok l
            | .error e => .failure ("Failed to search facilities: " ++ e)

/-- C8: `search_facilities` with all five search parameters absent raises the
validation `ValueError` immediately, for every possible client behaviour and
limit — i.e. before any network call is attempted. -/
theorem search_facilities_no_params
    (client : SearchQuery → Except String (List FacilityInfo)) (limit : ℤ) :
    search_facilities client none none none none none limit
      = .valueError "At least one search parameter must be provided" := by
  simp [search_facilities, truthy]

/-! ## HTTP retry behaviour (`src/client/base.py`, `EPAClient._execute_query`) -/

/-- Outcome of one low-level `httpx` GET: timeout, network failure, or a
received response with a status code and either a parsed JSON document or a
JSON parse failure (`none`). -/
inductive HttpOutcome (D : Type) where
  | timeout
  | networkError
  | response (statusCode : ℕ) (jsonBody : Option D)
deriving DecidableEq, Repr

/-- Exceptions visible inside `_execute_query`: the three `httpx` exception
classes the tenacity predicate matches on, and the EPA wrapper exceptions
actually raised out of the function body (`EPATimeoutError`,
`EPANetworkError`, `EPAAPIError`). -/
inductive PyExc where
  | httpxTimeout
  | httpxNetwork
  | httpxStatus (code : ℕ)
  | epaTimeout (msg : String)
  | epaNetwork (msg : String)
  | epaApi (msg : String)
deriving DecidableEq, Repr

/-- The tenacity predicate
`retry_if_exception_type((httpx.TimeoutException, httpx.NetworkError,
httpx.HTTPStatusError))`: true exactly for the httpx exception classes. -/
def tenacityRetryable : PyExc → Bool
  | .httpxTimeout => true
  | .httpxNetwork => true
  | .httpxStatus _ => true
  | _ => false

/-- One attempt of the `_execute_query` body: `raise_for_status` raises an
`httpx.HTTPStatusError` for status ≥ 400, which the `except` clauses convert
to `EPAAPIError` variants; timeouts and network errors are converted to
`EPATimeoutError` / `EPANetworkError`; an unparseable body raises
`EPAAPIError`.  No `httpx`-typed exception ever escapes the body. -/
def executeAttempt {D : Type} : HttpOutcome D → Except PyExc D
  | .timeout => .error (.epaTimeout "Request timed out")
  | .networkError => .error (.epaNetwork "Network error")
  | .response code body =>
      if 400 ≤ code then
        if code = 429 then
          .error (.epaApi "Rate limit exceeded - please try again later")
        else if 500 ≤ code then
          .error (.epaApi ("EPA API server error: " ++ toString code))
        else
          .error (.epaApi ("EPA API error " ++ toString code))
      else
        match body with
        | none => .error (.epaApi "Invalid JSON response")
        | some d => .ok d

/-- The tenacity retry loop (`stop_after_attempt`, `reraise=True`): run the
attempt; on an exception matching the retry predicate, retry while attempts
remain, otherwise re-raise.  Returns the result together with the number of
attempts actually made.  `attempts i` gives the low-level outcome of the
i-th GET. -/
def tenacityLoop {D : Type} (attempts : ℕ → HttpOutcome D) :
    ℕ → ℕ → Except PyExc D × ℕ
  | 0, i => (.error (.epaApi "retry budget exhausted"), i)
  | fuel + 1, i =>
      match executeAttempt (attempts i) with
      | .ok d => (.ok d, i + 1)
      | .error e =>
          if tenacityRetryable e ∧ fuel ≠ 0 then
            tenacityLoop attempts fuel (i + 1)
          else
            (.error e, i + 1)

/-- Model of `_execute_query`: the tenacity decorator with
`stop_after_attempt(3)` wrapping the body. -/
def execute_query {D : Type} (attempts : ℕ → HttpOutcome D) :
    Except PyExc D × ℕ :=
  tenacityLoop attempts 3 0

lemma executeAttempt_not_retryable {D : Type} (o : HttpOutcome D) (e : PyExc)
    (h : executeAttempt o = .error e) : tenacityRetryable e = false := by
  cases o with
  | timeout =>
      simp only [executeAttempt, Except.error.injEq] at h
      rw [← h]; rfl
  | networkError =>
      simp only [executeAttempt, Except.error.injEq] at h
      rw [← h]; rfl
  | response code body =>
      simp only [executeAttempt] at h
      split at h
      · split at h
        · simp only [Except.error.injEq] at h; rw [← h]; rfl
        · split at h
          · simp only [Except.error.injEq] at h; rw [← h]; rfl
          · simp only [Except.error.injEq] at h; rw [← h]; rfl
      · cases body with
        | none => simp only [Except.error.injEq] at h; rw [← h]; rfl
        | some d => cases h

/-- C2 (code evaluated at the failing input): when every GET attempt times
out, `_execute_query` raises `EPATimeoutError` after exactly ONE attempt — no
retry ever happens, because the `except` clauses convert `httpx` exceptions
into EPA-typed errors before tenacity's `retry_if_exception_type` (which only
matches `httpx` classes) can see them.  The claim (and the decorator's own
`stop_after_attempt(3)` / `wait_exponential` declaration) says timeouts are
retried up to 3 attempts.  The second conjunct shows the claim's true half:
a non-retryable 404 also raises after a single attempt.  The third conjunct
is the general no-retry fact. -/
theorem execute_query_never_retries :
    (execute_query (D := ℕ) (fun _ => .timeout)
      = (.error (.epaTimeout "Request timed out"), 1)) ∧
    (execute_query (D := ℕ) (fun _ => .response 404 none)
      = (.error (.epaApi ("EPA API error " ++ toString 404)), 1)) ∧
    ∀ (D : Type) (attempts : ℕ → HttpOutcome D),
      (execute_query attempts).2 = 1 := by
  refine ⟨rfl, rfl, ?_⟩
  intro D attempts
  show (tenacityLoop attempts 3 0).2 = 1
  unfold tenacityLoop
  match h : executeAttempt (attempts 0) with
  | .ok d => rfl
  | .error e => simp [executeAttempt_not_retryable _ _ h]

/-! ## Distance filtering (`src/utils/distance.py`) -/

/-- Python sort key `lambda f: f.distance_miles or float('inf')` used by
`filter_by_distance`: `None` maps to infinity — but so does a distance of
exactly `0.0`, because `0.0` is falsy in Python.  `none` here represents
`float('inf')`. -/
def filterSortKey (f : FacilityInfo) : Option ℚ :=
  match f.distance_miles with
  | some d => if d = 0 then none else some d
  | none => none

/-- Python sort key `lambda f: f.distance_miles if f.distance_miles is not
None else float('inf')` used by `rank_facilities` (`none` = infinity). -/
def rankSortKey (f : FacilityInfo) : Option ℚ :=
  f.distance_miles

/-- Order on sort keys with `none` playing `float('inf')`. -/
def keyLE : Option ℚ → Option ℚ → Bool
  | _, none => true
  | none, some _ => false
  | some a, some b => a ≤ b

/-- Loop body of `filter_by_distance`: facilities with coordinates within
the radius are appended with their `distance_miles` field set to the computed
distance; facilities without coordinates are skipped. -/
def filterStep (dist : Coordinates → Coordinates → ℚ) (center : Coordinates)
    (max_distance_miles : ℚ) (acc : List FacilityInfo) (f : FacilityInfo) :
    List FacilityInfo :=
  match f.coordinates with
  | some c =>
      if dist center c ≤ max_distance_miles then
        acc ++ [{ f with distance_miles := some (dist center c) }]
      else acc
  | none => acc

/-- Model of `filter_by_distance`.  The haversine distance (floating-point
trigonometry) is passed in as the parameter `dist`; every property claimed of
this function holds for an arbitrary distance function.  Python's stable
`list.sort` is modelled by a stable insertion sort. -/
def filter_by_distance (dist : Coordinates → Coordinates → ℚ)
    (facilities : List FacilityInfo) (center : Coordinates)
    (max_distance_miles : ℚ) : List FacilityInfo :=
  (facilities.foldl (filterStep dist center max_distance_miles) []).insertionSort
    (fun a b => keyLE (filterSortKey a) (filterSortKey b))

/-- Model of `rank_facilities`: stable sort by distance with missing
distances last, then truncate to `limit`. -/
def rank_facilities (facilities : List FacilityInfo) (limit : ℕ) :
    List FacilityInfo :=
  (facilities.insertionSort
    (fun a b => keyLE (rankSortKey a) (rankSortKey b))).take limit

/-- Facility at the search center, used by the C5 failing input. -/
def centerFacility : FacilityInfo :=
  { registry_id := "C5A", name := "At Center",
    coordinates := some ⟨0, 0⟩, programs := [.FRS] }

/-- Facility away from the search center, used by the C5 failing input. -/
def awayFacility : FacilityInfo :=
  { registry_id := "C5B", name := "Away",
    coordinates := some ⟨3, 4⟩, programs := [.FRS] }

/-- Distance function used by the C5 failing input: 0 between identical
coordinates (as the haversine formula gives) and 5 between the center and
`awayFacility`'s coordinates. -/
def c5Dist (a b : Coordinates) : ℚ :=
  if a = b then 0 else 5

/-- C5 evaluated at the failing input: with one facility at the exact search
center (haversine distance `0.0`) and one 5 miles away, `filter_by_distance`
returns the distance-5 facility FIRST and the distance-0 facility LAST — not
ascending order.  The sort key `f.distance_miles or float('inf')` treats the
just-assigned `0.0` as falsy and replaces it with infinity.  Both facilities
are kept, within the radius and have `distance_miles` set (those parts of the
claim hold); only the sortedness part fails. -/
theorem filter_by_distance_zero_distance_last :
    filter_by_distance c5Dist [centerFacility, awayFacility] ⟨0, 0⟩ 100
      = [{ awayFacility with distance_miles := some 5 },
         { centerFacility with distance_miles := some 0 }] ∧
    (0 : ℚ) < 5 := by
  constructor
  · decide
  · norm_num

/-! ## Facility aggregation (`src/utils/aggregation.py`, `aggregate_facilities`) -/

/-- Python `programs = set(existing.programs); programs.update(new);
list(programs)`: membership-wise the union of both lists.  (The Python list
order is the hash-iteration order of the set; all theorems about programs are
stated via membership, never order.) -/
def mergePrograms (ps qs : List FacilityType) : List FacilityType :=
  (ps ++ qs).dedup

/-- Conversion of an SDWIS `WaterSystem` into a `FacilityInfo`, as done in
the final loop of `aggregate_facilities`. -/
def waterToFacility (s : WaterSystem) : FacilityInfo :=
  { registry_id := s.system_id, name := s.name, address := none, city := none,
    state := s.state, zip_code := none, coordinates := s.coordinates,
    programs := [.SDWIS], distance_miles := s.distance_miles }

/-- First loop of `aggregate_facilities`: FRS facilities are stored under
their registry id, skipping falsy (empty) ids. -/
def frsStep (m : List (String × FacilityInfo)) (f : FacilityInfo) :
    List (String × FacilityInfo) :=
  if f.registry_id ≠ "" then dictSet m f.registry_id f else m

/-- Second/third loop of `aggregate_facilities` (TRI and RCRA): if the id is
already present, union the program tags into the existing entry, otherwise
insert. -/
def mergeStep (m : List (String × FacilityInfo)) (f : FacilityInfo) :
    List (String × FacilityInfo) :=
  match dictGet m f.registry_id with
  | some existing =>
      dictSet m f.registry_id
        { existing with programs := mergePrograms existing.programs f.programs }
  | none => dictSet m f.registry_id f

/-- Final loop of `aggregate_facilities`: every SDWIS system is stored under
its `system_id` unconditionally (overwriting any entry already there). -/
def sdwisStep (m : List (String × FacilityInfo)) (s : WaterSystem) :
    List (String × FacilityInfo) :=
  dictSet m s.system_id (waterToFacility s)

/-- Model of `aggregate_facilities`: insertion-ordered dict keyed by
registry id, processed FRS then TRI then RCRA then SDWIS, returning
`list(facility_map.values())`. -/
def aggregate_facilities (frs_facilities tri_facilities rcra_facilities :
    List FacilityInfo) (sdwis_systems : List WaterSystem) : List FacilityInfo :=
  let m1 := frs_facilities.foldl frsStep []
  let m2 := tri_facilities.foldl mergeStep m1
  let m3 := rcra_facilities.foldl mergeStep m2
  let m4 := sdwis_systems.foldl sdwisStep m3
  m4.map Prod.snd

lemma mem_mergePrograms (p : FacilityType) (ps qs : List FacilityType) :
    p ∈ mergePrograms ps qs ↔ p ∈ ps ∨ p ∈ qs := by
  simp [mergePrograms]

/-- FRS-side facility with a falsy (empty) registry id, for the C1
counterexample. -/
def emptyIdFrs : FacilityInfo :=
  { registry_id := "", name := "A", programs := [.FRS] }

/-- TRI-side facility with the same falsy registry id, for the C1
counterexample. -/
def emptyIdTri : FacilityInfo :=
  { registry_id := "", name := "B", programs := [.TRI] }

/-- C1 counterexample: two facilities sharing registry id `""` with different
program tags.  The FRS pass skips the falsy id, the TRI pass inserts its
facility unchanged, so the single output entity with that registry id has
program set `{TRI}` — NOT the union `{FRS, TRI}` the claim requires. -/
theorem aggregate_empty_id_loses_programs :
    aggregate_facilities [emptyIdFrs] [emptyIdTri] [] [] = [emptyIdTri] ∧
    emptyIdFrs.registry_id = emptyIdTri.registry_id ∧
    (emptyIdFrs.programs ≠ emptyIdTri.programs) ∧
    FacilityType.FRS ∈ emptyIdFrs.programs ∧
    FacilityType.FRS ∉ emptyIdTri.programs := by
  decide

/-- C1 (amended): for two input facilities sharing a NON-empty registry id
but different program tags — one in the FRS list and the other in the TRI or
the RCRA list — `aggregate_facilities` returns exactly one facility with that
registry id, and its program set is the union of the two inputs' tags. -/
theorem aggregate_merge_union (f g : FacilityInfo)
    (hrid : f.registry_id ≠ "") (hg : g.registry_id = f.registry_id) :
    (∃ h, aggregate_facilities [f] [g] [] [] = [h] ∧
      h.registry_id = f.registry_id ∧
      ∀ p, p ∈ h.programs ↔ p ∈ f.programs ∨ p ∈ g.programs) ∧
    (∃ h, aggregate_facilities [f] [] [g] [] = [h] ∧
      h.registry_id = f.registry_id ∧
      ∀ p, p ∈ h.programs ↔ p ∈ f.programs ∨ p ∈ g.programs) := by
  constructor <;>
  · refine ⟨{ f with programs := mergePrograms f.programs g.programs },
      ?_, rfl, fun p => mem_mergePrograms p f.programs g.programs⟩
    simp [aggregate_facilities, frsStep, mergeStep, sdwisStep,
      dictSet, dictGet, hrid, hg]

/-- FRS-side facility for the C1 witness. -/
def c1Frs : FacilityInfo :=
  { registry_id := "R1", name := "A", programs := [.FRS] }

/-- TRI-side facility for the C1 witness. -/
def c1Tri : FacilityInfo :=
  { registry_id := "R1", name := "B", programs := [.TRI] }

/-- Witness for the amended C1 at a concrete pair of facilities sharing the
non-empty registry id `R1`. -/
theorem aggregate_merge_union_witness :
    ∃ h, aggregate_facilities [c1Frs] [c1Tri] [] [] = [h] ∧
      h.registry_id = c1Frs.registry_id ∧
      ∀ p, p ∈ h.programs ↔ p ∈ c1Frs.programs ∨ p ∈ c1Tri.programs :=
  (aggregate_merge_union c1Frs c1Tri (by decide) (by decide)).1

/-! ## Frame properties of the pipeline (which fields can change) -/

lemma mem_dictSet {κ α : Type} [DecidableEq κ] (m : List (κ × α)) (k : κ)
    (v : α) (e : κ × α) (he : e ∈ dictSet m k v) : e = (k, v) ∨ e ∈ m := by
  induction m with
  | nil => simpa [dictSet] using he
  | cons hd t ih =>
      unfold dictSet at he
      split at he
      · rcases List.mem_cons.mp he with h | h
        · exact Or.inl h
        · exact Or.inr (List.mem_cons_self hd t |> fun _ => List.mem_cons.mpr (Or.inr h))
      · rcases List.mem_cons.mp he with h | h
        · exact Or.inr (List.mem_cons.mpr (Or.inl h))
        · rcases ih h with h2 | h2
          · exact Or.inl h2
          · exact Or.inr (List.mem_cons.mpr (Or.inr h2))

lemma dictGet_mem {κ α : Type} [DecidableEq κ] (m : List (κ × α)) (k : κ)
    (v : α) (h : dictGet m k = some v) : (k, v) ∈ m := by
  induction m with
  | nil => simp [dictGet] at h
  | cons hd t ih =>
      unfold dictGet at h
      split at h
      · rename_i heq
        obtain rfl : hd.2 = v := by simpa using h
        exact List.mem_cons.mpr (Or.inl (by rw [← heq]))
      · exact List.mem_cons.mpr (Or.inr (ih h))

lemma frs_fold_pres (P : FacilityInfo → Prop) (l : List FacilityInfo)
    (m : List (String × FacilityInfo))
    (hl : ∀ f ∈ l, P f) (hm : ∀ e ∈ m, P e.2) :
    ∀ e ∈ l.foldl frsStep m, P e.2 := by
  induction l generalizing m with
  | nil => exact hm
  | cons f t ih =>
      refine ih _ (fun g hg => hl g (List.mem_cons.mpr (Or.inr hg))) ?_
      intro e he
      unfold frsStep at he
      split at he
      · rcases mem_dictSet _ _ _ _ he with rfl | h2
        · exact hl f (List.mem_cons.mpr (Or.inl rfl))
        · exact hm e h2
      · exact hm e he

lemma merge_fold_pres (P : FacilityInfo → Prop)
    (closure : ∀ h ps, P h → P { h with programs := ps })
    (l : List FacilityInfo) (m : List (String × FacilityInfo))
    (hl : ∀ f ∈ l, P f) (hm : ∀ e ∈ m, P e.2) :
    ∀ e ∈ l.foldl mergeStep m, P e.2 := by
  induction l generalizing m with
  | nil => exact hm
  | cons f t ih =>
      refine ih _ (fun g hg => hl g (List.mem_cons.mpr (Or.inr hg))) ?_
      intro e he
      unfold mergeStep at he
      split at he
      · rename_i existing hget
        rcases mem_dictSet _ _ _ _ he with rfl | h2
        · exact closure existing _ (hm _ (dictGet_mem _ _ _ hget))
        · exact hm e h2
      · rcases mem_dictSet _ _ _ _ he with rfl | h2
        · exact hl f (List.mem_cons.mpr (Or.inl rfl))
        · exact hm e h2

lemma sdwis_fold_pres (P : FacilityInfo → Prop) (l : List WaterSystem)
    (m : List (String × FacilityInfo))
    (hl : ∀ s ∈ l, P (waterToFacility s)) (hm : ∀ e ∈ m, P e.2) :
    ∀ e ∈ l.foldl sdwisStep m, P e.2 := by
  induction l generalizing m with
  | nil => exact hm
  | cons s t ih =>
      refine ih _ (fun g hg => hl g (List.mem_cons.mpr (Or.inr hg))) ?_
      intro e he
      unfold sdwisStep at he
      rcases mem_dictSet _ _ _ _ he with rfl | h2
      · exact hl s (List.mem_cons.mpr (Or.inl rfl))
      · exact hm e h2

/-- Forget the `distance_miles` field (used to state "equal except for
`distance_miles`"). -/
def eraseDist (f : FacilityInfo) : FacilityInfo := { f with distance_miles := none }

/-- Forget the `programs` field (used to state "equal except for
`programs`", i.e. the non-program fields). -/
def eraseProgs (f : FacilityInfo) : FacilityInfo := { f with programs := [] }

lemma filterStep_none (dist : Coordinates → Coordinates → ℚ)
    (center : Coordinates) (maxd : ℚ) (acc : List FacilityInfo)
    (f : FacilityInfo) (h : f.coordinates = none) :
    filterStep dist center maxd acc f = acc := by
  simp [filterStep, h]

lemma filterStep_some (dist : Coordinates → Coordinates → ℚ)
    (center : Coordinates) (maxd : ℚ) (acc : List FacilityInfo)
    (f : FacilityInfo) (c : Coordinates) (h : f.coordinates = some c) :
    filterStep dist center maxd acc f =
      if dist center c ≤ maxd then
        acc ++ [{ f with distance_miles := some (dist center c) }]
      else acc := by
  simp [filterStep, h]

lemma mem_filter_accum (dist : Coordinates → Coordinates → ℚ)
    (center : Coordinates) (maxd : ℚ) (facs : List FacilityInfo)
    (acc : List FacilityInfo) (h : FacilityInfo)
    (hmem : h ∈ facs.foldl (filterStep dist center maxd) acc) :
    h ∈ acc ∨ ∃ f ∈ facs, eraseDist h = eraseDist f := by
  induction facs generalizing acc with
  | nil => exact Or.inl hmem
  | cons f t ih =>
      rw [List.foldl_cons] at hmem
      rcases ih _ hmem with hacc | ⟨g, hg, he⟩
      · rcases hc : f.coordinates with _ | c
        · rw [filterStep_none dist center maxd acc f hc] at hacc
          exact Or.inl hacc
        · rw [filterStep_some dist center maxd acc f c hc] at hacc
          split at hacc
          · rcases List.mem_append.mp hacc with h1 | h1
            · exact Or.inl h1
            · refine Or.inr ⟨f, List.mem_cons.mpr (Or.inl rfl), ?_⟩
              obtain rfl : h = { f with distance_miles := some (dist center c) } := by
                simpa using h1
              rfl
          · exact Or.inl hacc
      · exact Or.inr ⟨g, List.mem_cons.mpr (Or.inr hg), he⟩

/-- FRS-side facility used by the C10 counterexample. -/
def c10MFrs : FacilityInfo :=
  { registry_id := "Y", name := "A", programs := [.FRS] }

/-- TRI-side facility used by the C10 counterexample. -/
def c10MTri : FacilityInfo :=
  { registry_id := "Y", name := "B", programs := [.TRI] }

/-- C10 counterexample: merging two same-id facilities changes the `programs`
field of the surviving entity — the merged output's program list equals
neither input's, so `aggregate_facilities` does NOT leave the `programs`
field of existing entities unchanged (the claim lists `programs` among the
fields that no operation other than distance-filtering may touch). -/
theorem aggregate_mutates_programs :
    aggregate_facilities [c10MFrs] [c10MTri] [] []
      = [{ c10MFrs with programs := [.FRS, .TRI] }] ∧
    ∀ h ∈ aggregate_facilities [c10MFrs] [c10MTri] [] [],
      h.programs ≠ c10MFrs.programs ∧ h.programs ≠ c10MTri.programs := by
  decide

/-- C10 (amended): through the pipeline, the only fields of an
already-constructed `FacilityInfo` that ever change are `distance_miles`
(set by the distance-filtering step) and `programs` (unioned by
`aggregate_facilities` when merging same-id entities): every output entity of
`filter_by_distance` equals some input entity except possibly in
`distance_miles`, and every output entity of `aggregate_facilities` equals
some input entity except possibly in `programs` (or is the facility-shaped
conversion of an input SDWIS water system). -/
theorem pipeline_mutation_frame
    (dist : Coordinates → Coordinates → ℚ) (facilities : List FacilityInfo)
    (center : Coordinates) (maxd : ℚ)
    (frs tri rcra : List FacilityInfo) (sdwis : List WaterSystem) :
    (∀ h ∈ filter_by_distance dist facilities center maxd,
      ∃ f ∈ facilities, eraseDist h = eraseDist f) ∧
    (∀ h ∈ aggregate_facilities frs tri rcra sdwis,
      (∃ f ∈ frs ++ tri ++ rcra, eraseProgs h = eraseProgs f) ∨
      (∃ s ∈ sdwis, h = waterToFacility s)) := by
  constructor
  · intro h hmem
    unfold filter_by_distance at hmem
    rw [(List.perm_insertionSort _ _).mem_iff] at hmem
    rcases mem_filter_accum dist center maxd facilities [] h hmem with h1 | h1
    · simp at h1
    · exact h1
  · intro h hmem
    unfold aggregate_facilities at hmem
    rw [List.mem_map] at hmem
    obtain ⟨e, he, rfl⟩ := hmem
    have closure1 : ∀ (h : FacilityInfo) (ps : List FacilityType),
        (∃ f ∈ frs ++ tri ++ rcra, eraseProgs h = eraseProgs f) →
        ∃ f ∈ frs ++ tri ++ rcra,
          eraseProgs { h with programs := ps } = eraseProgs f := by
      intro h ps ⟨f, hf, he2⟩
      exact ⟨f, hf, he2⟩
    have h1 : ∀ e ∈ frs.foldl frsStep [],
        ∃ f ∈ frs ++ tri ++ rcra, eraseProgs e.2 = eraseProgs f := by
      refine frs_fold_pres
        (fun h => ∃ f ∈ frs ++ tri ++ rcra, eraseProgs h = eraseProgs f)
        frs [] (fun f hf => ⟨f, by simp [hf], rfl⟩) (by simp)
    have h2 : ∀ e ∈ tri.foldl mergeStep (frs.foldl frsStep []),
        ∃ f ∈ frs ++ tri ++ rcra, eraseProgs e.2 = eraseProgs f := by
      refine merge_fold_pres
        (fun h => ∃ f ∈ frs ++ tri ++ rcra, eraseProgs h = eraseProgs f)
        closure1 tri _ (fun f hf => ⟨f, by simp [hf], rfl⟩) h1
    have h3 : ∀ e ∈ rcra.foldl mergeStep
        (tri.foldl mergeStep (frs.foldl frsStep [])),
        ∃ f ∈ frs ++ tri ++ rcra, eraseProgs e.2 = eraseProgs f := by
      refine merge_fold_pres
        (fun h => ∃ f ∈ frs ++ tri ++ rcra, eraseProgs h = eraseProgs f)
        closure1 rcra _ (fun f hf => ⟨f, by simp [hf], rfl⟩) h2
    exact sdwis_fold_pres
      (fun h =>
        (∃ f ∈ frs ++ tri ++ rcra, eraseProgs h = eraseProgs f) ∨
        (∃ s ∈ sdwis, h = waterToFacility s))
      sdwis _ (fun s hs => Or.inr ⟨s, hs, rfl⟩)
      (fun e he => Or.inl (h3 e he)) e he

/-- Facility used by the C10 witness. -/
def c10Fac : FacilityInfo :=
  { registry_id := "W", name := "N", coordinates := some ⟨1, 2⟩,
    programs := [.FRS] }

/-- Witness for the amended C10: the one facility kept by a concrete
`filter_by_distance` call agrees with its input except for `distance_miles`. -/
theorem pipeline_mutation_frame_witness :
    ∃ f ∈ [c10Fac],
      eraseDist { c10Fac with distance_miles := some 1 } = eraseDist f :=
  (pipeline_mutation_frame (fun _ _ => 1) [c10Fac] ⟨0, 0⟩ 2 [] [] [] []).1
    { c10Fac with distance_miles := some 1 } (by decide)

/-! ## Characterization of `aggregate_facilities` lookups (for C9) -/

lemma dictGet_dictSet_self {κ α : Type} [DecidableEq κ]
    (m : List (κ × α)) (k : κ) (v : α) : dictGet (dictSet m k v) k = some v := by
  induction m with
  | nil => simp [dictSet, dictGet]
  | cons e t ih =>
      unfold dictSet
      split
      · simp [dictGet]
      · rename_i hne
        simp [dictGet, hne, ih]

lemma dictGet_dictSet_ne {κ α : Type} [DecidableEq κ]
    (m : List (κ × α)) (k' k : κ) (v : α) (h : k' ≠ k) :
    dictGet (dictSet m k' v) k = dictGet m k := by
  induction m with
  | nil => simp [dictSet, dictGet, h]
  | cons e t ih =>
      unfold dictSet
      split
      · rename_i heq
        simp [dictGet, heq, h]
      · unfold dictGet
        split <;> simp [*]

/-- Last element of the list whose `registry_id` is `k` (Python dict
last-write-wins within the FRS pass). -/
def lastWithId (l : List FacilityInfo) (k : String) : Option FacilityInfo :=
  l.foldl (fun acc f => if f.registry_id = k then some f else acc) none

lemma foldl_lastWith (k : String) (t : List FacilityInfo)
    (acc : Option FacilityInfo) :
    t.foldl (fun a f => if f.registry_id = k then some f else a) acc
      = (lastWithId t k).elim acc some := by
  induction t generalizing acc with
  | nil => rfl
  | cons f t ih =>
      show t.foldl _ (if f.registry_id = k then some f else acc) = _
      rw [ih]
      have hrhs : lastWithId (f :: t) k
          = (lastWithId t k).elim (if f.registry_id = k then some f else none) some := by
        show t.foldl _ (if f.registry_id = k then some f else none) = _
        rw [ih]
      rw [hrhs]
      cases lastWithId t k with
      | some x => rfl
      | none =>
          by_cases hp : f.registry_id = k <;> simp [hp]

lemma lastWithId_cons (k : String) (f : FacilityInfo) (t : List FacilityInfo) :
    lastWithId (f :: t) k
      = (lastWithId t k).elim (if f.registry_id = k then some f else none) some := by
  show t.foldl _ (if f.registry_id = k then some f else none) = _
  rw [foldl_lastWith]

lemma lastWithId_eq_none_iff (k : String) (l : List FacilityInfo) :
    lastWithId l k = none ↔ l.filter (fun f => f.registry_id = k) = [] := by
  induction l with
  | nil => simp [lastWithId]
  | cons f t ih =>
      rw [lastWithId_cons]
      by_cases hp : f.registry_id = k
      · cases lastWithId t k <;> simp [hp, List.filter_cons]
      · cases htl : lastWithId t k <;>
          simp [hp, List.filter_cons, ← ih, htl]

lemma lastWithId_of_single (l : List FacilityInfo) (k : String)
    (h1 : (l.filter (fun f => f.registry_id = k)).length ≤ 1) :
    lastWithId l k = (l.filter (fun f => f.registry_id = k)).head? := by
  induction l with
  | nil => rfl
  | cons f t ih =>
      rw [lastWithId_cons]
      by_cases hp : f.registry_id = k
      · have ht : t.filter (fun f => f.registry_id = k) = [] := by
          rw [List.filter_cons_of_pos (by simpa using hp)] at h1
          refine List.length_eq_zero.mp ?_
          simp only [List.length_cons] at h1
          omega
        rw [(lastWithId_eq_none_iff k t).mpr ht,
          List.filter_cons_of_pos (by simpa using hp)]
        simp [hp]
      · rw [List.filter_cons_of_neg (by simpa using hp)] at h1 ⊢
        rw [← ih h1]
        cases lastWithId t k <;> simp [hp]

lemma dictGet_frs_fold (k : String) (hk : k ≠ "") (l : List FacilityInfo)
    (m : List (String × FacilityInfo)) :
    dictGet (l.foldl frsStep m) k = (lastWithId l k).elim (dictGet m k) some := by
  induction l generalizing m with
  | nil => rfl
  | cons f t ih =>
      rw [List.foldl_cons, ih, lastWithId_cons]
      by_cases hp : f.registry_id = k
      · have hstep : dictGet (frsStep m f) k = some f := by
          unfold frsStep
          rw [if_pos (by rw [hp]; exact hk), hp, dictGet_dictSet_self]
        rw [hstep]
        cases lastWithId t k <;> simp [hp]
      · have hstep : dictGet (frsStep m f) k = dictGet m k := by
          unfold frsStep
          split
          · exact dictGet_dictSet_ne m f.registry_id k f hp
          · rfl
        rw [hstep]
        cases lastWithId t k <;> simp [hp]

/-- Merging one more same-key facility into the (optional) entry already
present, as the TRI/RCRA loops do. -/
def mergeInto : Option FacilityInfo → FacilityInfo → Option FacilityInfo
  | some existing, f =>
      some { existing with programs := mergePrograms existing.programs f.programs }
  | none, f => some f

lemma dictGet_merge_fold (k : String) (l : List FacilityInfo)
    (m : List (String × FacilityInfo)) :
    dictGet (l.foldl mergeStep m) k
      = (l.filter (fun f => f.registry_id = k)).foldl mergeInto (dictGet m k) := by
  induction l generalizing m with
  | nil => rfl
  | cons f t ih =>
      rw [List.foldl_cons, ih, List.filter_cons]
      by_cases hp : f.registry_id = k
      · have hstep : dictGet (mergeStep m f) k = mergeInto (dictGet m k) f := by
          unfold mergeStep
          rw [hp]
          cases dictGet m k with
          | some existing => simp [mergeInto, dictGet_dictSet_self]
          | none => simp [mergeInto, dictGet_dictSet_self]
        simp [hp, hstep]
      · have hstep : dictGet (mergeStep m f) k = dictGet m k := by
          unfold mergeStep
          cases dictGet m f.registry_id <;>
            exact dictGet_dictSet_ne m f.registry_id k _ hp
        simp [hp, hstep]

lemma dictGet_sdwis_fold (k : String) (l : List WaterSystem)
    (m : List (String × FacilityInfo)) (hl : ∀ s ∈ l, s.system_id ≠ k) :
    dictGet (l.foldl sdwisStep m) k = dictGet m k := by
  induction l generalizing m with
  | nil => rfl
  | cons s t ih =>
      rw [List.foldl_cons]
      rw [ih _ (fun x hx => hl x (List.mem_cons.mpr (Or.inr hx)))]
      exact dictGet_dictSet_ne m s.system_id k _
        (hl s (List.mem_cons.mpr (Or.inl rfl)))

lemma mergeFold_some (l : List FacilityInfo) (b : FacilityInfo) :
    ∃ ps, l.foldl mergeInto (some b) = some { b with programs := ps } ∧
      ∀ p, p ∈ ps ↔ p ∈ b.programs ∨ ∃ f ∈ l, p ∈ f.programs := by
  induction l generalizing b with
  | nil => exact ⟨b.programs, rfl, by simp⟩
  | cons f t ih =>
      obtain ⟨ps, heq, hmem⟩ := ih { b with programs := mergePrograms b.programs f.programs }
      refine ⟨ps, by simpa [mergeInto] using heq, fun p => ?_⟩
      rw [hmem p]
      simp only [mem_mergePrograms]
      constructor
      · rintro ((h | h) | ⟨g, hg, h⟩)
        · exact Or.inl h
        · exact Or.inr ⟨f, List.mem_cons.mpr (Or.inl rfl), h⟩
        · exact Or.inr ⟨g, List.mem_cons.mpr (Or.inr hg), h⟩
      · rintro (h | ⟨g, hg, h⟩)
        · exact Or.inl (Or.inl h)
        · rcases List.mem_cons.mp hg with rfl | hg2
          · exact Or.inl (Or.inr h)
          · exact Or.inr ⟨g, hg2, h⟩

/-- Well-formedness of the facility map: keys are distinct (a Python dict
invariant) and every stored facility's `registry_id` equals its key (an
invariant of `aggregate_facilities`). -/
def WFmap (m : List (String × FacilityInfo)) : Prop :=
  (m.map Prod.fst).Nodup ∧ ∀ e ∈ m, e.2.registry_id = e.1

lemma mem_keys_dictSet {κ α : Type} [DecidableEq κ] (m : List (κ × α))
    (k k' : κ) (v : α) :
    k' ∈ (dictSet m k v).map Prod.fst ↔ k' ∈ m.map Prod.fst ∨ k' = k := by
  induction m with
  | nil => simp [dictSet]
  | cons e t ih =>
      unfold dictSet
      split
      · rename_i heq
        simp [heq]
        tauto
      · simp [ih]
        tauto

lemma nodup_keys_dictSet {κ α : Type} [DecidableEq κ] (m : List (κ × α))
    (k : κ) (v : α) (h : (m.map Prod.fst).Nodup) :
    ((dictSet m k v).map Prod.fst).Nodup := by
  induction m with
  | nil => simp [dictSet]
  | cons e t ih =>
      unfold dictSet
      split
      · rename_i heq
        simp only [List.map_cons, List.nodup_cons] at h ⊢
        exact ⟨heq ▸ h.1, h.2⟩
      · rename_i hne
        simp only [List.map_cons, List.nodup_cons] at h ⊢
        refine ⟨?_, ih h.2⟩
        rw [mem_keys_dictSet]
        rintro (hin | rfl)
        · exact h.1 hin
        · exact hne rfl

lemma WFmap_dictSet (m : List (String × FacilityInfo)) (k : String)
    (v : FacilityInfo) (h : WFmap m) (hv : v.registry_id = k) :
    WFmap (dictSet m k v) := by
  refine ⟨nodup_keys_dictSet m k v h.1, fun e he => ?_⟩
  rcases mem_dictSet m k v e he with rfl | hmem
  · exact hv
  · exact h.2 e hmem

lemma WFmap_frs_fold (l : List FacilityInfo) (m : List (String × FacilityInfo))
    (h : WFmap m) : WFmap (l.foldl frsStep m) := by
  induction l generalizing m with
  | nil => exact h
  | cons f t ih =>
      refine ih _ ?_
      unfold frsStep
      split
      · exact WFmap_dictSet m f.registry_id f h rfl
      · exact h

lemma WFmap_merge_fold (l : List FacilityInfo)
    (m : List (String × FacilityInfo)) (h : WFmap m) :
    WFmap (l.foldl mergeStep m) := by
  induction l generalizing m with
  | nil => exact h
  | cons f t ih =>
      refine ih _ ?_
      unfold mergeStep
      split
      · rename_i existing hget
        refine WFmap_dictSet m f.registry_id _ h ?_
        show existing.registry_id = f.registry_id
        exact h.2 _ (dictGet_mem m f.registry_id existing hget)
      · exact WFmap_dictSet m f.registry_id f h rfl

lemma WFmap_sdwis_fold (l : List WaterSystem)
    (m : List (String × FacilityInfo)) (h : WFmap m) :
    WFmap (l.foldl sdwisStep m) := by
  induction l generalizing m with
  | nil => exact h
  | cons s t ih =>
      exact ih _ (WFmap_dictSet m s.system_id _ h rfl)

lemma filter_values_eq_nil (m : List (String × FacilityInfo))
    (hco : ∀ e ∈ m, e.2.registry_id = e.1) (k : String)
    (hk : k ∉ m.map Prod.fst) :
    (m.map Prod.snd).filter (fun f => f.registry_id = k) = [] := by
  rw [List.filter_eq_nil_iff]
  intro a ha
  obtain ⟨e, he, rfl⟩ := List.mem_map.mp ha
  simp only [decide_eq_true_eq]
  intro hcontra
  exact hk (List.mem_map.mpr ⟨e, he, (hco e he).symm.trans hcontra⟩)

lemma values_filter_of_WF (m : List (String × FacilityInfo)) (hwf : WFmap m)
    (k : String) :
    (m.map Prod.snd).filter (fun f => f.registry_id = k)
      = (dictGet m k).elim [] (fun v => [v]) := by
  induction m with
  | nil => rfl
  | cons e t ih =>
      obtain ⟨hnd, hco⟩ := hwf
      simp only [List.map_cons, List.nodup_cons] at hnd
      have he2 : e.2.registry_id = e.1 := hco e (List.mem_cons.mpr (Or.inl rfl))
      rw [List.map_cons, List.filter_cons]
      unfold dictGet
      by_cases hek : e.1 = k
      · have hnil := filter_values_eq_nil t
          (fun x hx => hco x (List.mem_cons.mpr (Or.inr hx))) k (hek ▸ hnd.1)
        simp [hek, he2, hnil]
      · rw [if_neg hek]
        have hneg : decide (e.2.registry_id = k) = false := by
          simp [he2, hek]
        rw [hneg]
        exact ih ⟨hnd.2, fun x hx => hco x (List.mem_cons.mpr (Or.inr hx))⟩

/-- All occurrences of key `k` across the FRS, TRI and RCRA input lists, in
processing order. -/
def keyOccurrences (frs tri rcra : List FacilityInfo) (k : String) :
    List FacilityInfo :=
  (frs ++ tri ++ rcra).filter (fun f => f.registry_id = k)

/-- C9 (amended): for a non-empty key `k` that occurs at most once in the FRS
list, occurs somewhere among the FRS/TRI/RCRA lists, and does not collide
with any SDWIS `system_id`, the aggregated output contains exactly one entity
with registry id `k`; its non-program fields are those of the FIRST
occurrence of `k` in processing order (FRS, then TRI, then RCRA), and its
program set is the union of the program tags of ALL occurrences of `k`.
(An SDWIS system whose `system_id` collides with `k` would instead replace
the entry wholesale — see the counterexample — which is why SDWIS collisions
are excluded here.) -/
theorem aggregate_first_seen_wins (frs tri rcra : List FacilityInfo)
    (sdwis : List WaterSystem) (k : String)
    (hk : k ≠ "")
    (hfrs1 : (frs.filter (fun f => f.registry_id = k)).length ≤ 1)
    (hsd : ∀ s ∈ sdwis, s.system_id ≠ k)
    (hocc : keyOccurrences frs tri rcra k ≠ []) :
    ∃ b merged,
      (keyOccurrences frs tri rcra k).head? = some b ∧
      (aggregate_facilities frs tri rcra sdwis).filter
        (fun f => f.registry_id = k) = [merged] ∧
      eraseProgs merged = eraseProgs b ∧
      ∀ p, p ∈ merged.programs ↔
        ∃ f ∈ keyOccurrences frs tri rcra k, p ∈ f.programs := by
  have hget4 : dictGet (sdwis.foldl sdwisStep
      (rcra.foldl mergeStep (tri.foldl mergeStep (frs.foldl frsStep [])))) k
      = dictGet (rcra.foldl mergeStep (tri.foldl mergeStep (frs.foldl frsStep []))) k :=
    dictGet_sdwis_fold k sdwis _ hsd
  have hget3 : dictGet (rcra.foldl mergeStep
      (tri.foldl mergeStep (frs.foldl frsStep []))) k
      = ((tri.filter (fun f => f.registry_id = k))
          ++ (rcra.filter (fun f => f.registry_id = k))).foldl mergeInto
          (dictGet (frs.foldl frsStep []) k) := by
    rw [dictGet_merge_fold, dictGet_merge_fold, List.foldl_append]
  have hget1 : dictGet (frs.foldl frsStep []) k
      = ((frs.filter (fun f => f.registry_id = k)).head?).elim none some := by
    rw [dictGet_frs_fold k hk frs [], lastWithId_of_single frs k hfrs1]
    rfl
  have hdecomp : keyOccurrences frs tri rcra k
      = frs.filter (fun f => f.registry_id = k)
        ++ (tri.filter (fun f => f.registry_id = k)
            ++ rcra.filter (fun f => f.registry_id = k)) := by
    simp [keyOccurrences, List.filter_append, List.append_assoc]
  have hwf : WFmap (sdwis.foldl sdwisStep
      (rcra.foldl mergeStep (tri.foldl mergeStep (frs.foldl frsStep [])))) :=
    WFmap_sdwis_fold _ _ (WFmap_merge_fold _ _ (WFmap_merge_fold _ _
      (WFmap_frs_fold _ _ ⟨List.nodup_nil, by simp⟩)))
  have hout : aggregate_facilities frs tri rcra sdwis
      = (sdwis.foldl sdwisStep (rcra.foldl mergeStep
          (tri.foldl mergeStep (frs.foldl frsStep [])))).map Prod.snd := rfl
  -- Reduce to a head/rest decomposition of the occurrence list.
  have hsplit : ∃ b rest,
      keyOccurrences frs tri rcra k = b :: rest ∧
      dictGet (rcra.foldl mergeStep (tri.foldl mergeStep (frs.foldl frsStep []))) k
        = rest.foldl mergeInto (some b) := by
    rcases hfil : frs.filter (fun f => f.registry_id = k) with _ | ⟨x, xs⟩
    · rcases htr : tri.filter (fun f => f.registry_id = k)
          ++ rcra.filter (fun f => f.registry_id = k) with _ | ⟨y, ys⟩
      · exact absurd (by rw [hdecomp, hfil, htr]; rfl) hocc
      · refine ⟨y, ys, by rw [hdecomp, hfil, htr]; rfl, ?_⟩
        rw [hget3, hget1, hfil, htr]
        rfl
    · have hxs : xs = [] := by
        rw [hfil] at hfrs1
        simpa using List.length_eq_zero.mp (by simpa using hfrs1)
      subst hxs
      refine ⟨x, tri.filter (fun f => f.registry_id = k)
          ++ rcra.filter (fun f => f.registry_id = k),
        by rw [hdecomp, hfil]; rfl, ?_⟩
      rw [hget3, hget1, hfil]
      rfl
  obtain ⟨b, rest, hocc_eq, hget⟩ := hsplit
  obtain ⟨ps, hfold, hmem⟩ := mergeFold_some rest b
  refine ⟨b, { b with programs := ps }, by rw [hocc_eq]; rfl, ?_, rfl, ?_⟩
  · rw [hout, values_filter_of_WF _ hwf k, hget4, hget, hfold]
    rfl
  · intro p
    rw [hmem p, hocc_eq]
    simp

/-- FRS facility whose registry id collides with an SDWIS system id, for the
C9 counterexample. -/
def c9CollFrs : FacilityInfo :=
  { registry_id := "X", name := "A", programs := [.FRS] }

/-- SDWIS water system whose `system_id` equals the FRS registry id, for the
C9 counterexample. -/
def c9CollWs : WaterSystem :=
  { system_id := "X", name := "B" }

/-- C9 counterexample: when an SDWIS system's `system_id` equals an earlier
FRS registry id, the SDWIS conversion REPLACES the existing entry wholesale —
the first-seen FRS entry's non-program fields do NOT win (the name changes)
and the program set is `[SDWIS]`, not a union containing `FRS`.  This
falsifies the claim, which includes SDWIS systems in its first-seen-wins
merge order. -/
theorem aggregate_sdwis_overwrites :
    aggregate_facilities [c9CollFrs] [] [] [c9CollWs]
      = [waterToFacility c9CollWs] ∧
    (waterToFacility c9CollWs).name ≠ c9CollFrs.name ∧
    FacilityType.FRS ∈ c9CollFrs.programs ∧
    FacilityType.FRS ∉ (waterToFacility c9CollWs).programs := by
  decide

/-- FRS facility for the C9 witness. -/
def c9Frs : FacilityInfo :=
  { registry_id := "R9", name := "First", city := some "Springfield",
    programs := [.FRS] }

/-- TRI facility for the C9 witness. -/
def c9Tri : FacilityInfo :=
  { registry_id := "R9", name := "Second", city := some "Shelbyville",
    programs := [.TRI] }

/-- Witness for the amended C9 at a concrete FRS/TRI pair sharing key `R9`. -/
theorem aggregate_first_seen_wins_witness :
    ∃ b merged,
      (keyOccurrences [c9Frs] [c9Tri] [] "R9").head? = some b ∧
      (aggregate_facilities [c9Frs] [c9Tri] [] []).filter
        (fun f => f.registry_id = "R9") = [merged] ∧
      eraseProgs merged = eraseProgs b ∧
      ∀ p, p ∈ merged.programs ↔
        ∃ f ∈ keyOccurrences [c9Frs] [c9Tri] [] "R9", p ∈ f.programs :=
  aggregate_first_seen_wins [c9Frs] [c9Tri] [] [] "R9"
    (by decide) (by decide) (by simp) (by decide)

/-! ## Location summary pipeline (`src/tools/location_summary.py` and
`format_environmental_summary` of `src/utils/aggregation.py`) -/

/-- Python `m[k] += v` on a `defaultdict(int)`. -/
def dictAddN {κ : Type} [DecidableEq κ] (m : List (κ × ℕ)) (k : κ) (v : ℕ) :
    List (κ × ℕ) :=
  dictSet m k ((dictGet m k).getD 0 + v)

/-- Model of the fixed-key `summary_stats` dict assembled by
`format_environmental_summary`. -/
structure SummaryStats where
  search_radius_miles : ℚ
  total_population_served : ℕ
  active_violation_count : ℕ
  facilities_with_releases : ℕ
  unique_chemicals : ℕ
  hazardous_waste_sites : ℕ
deriving DecidableEq, Repr

/-- Model of `src/models/summary.py` `EnvironmentalSummary`. -/
structure EnvironmentalSummary where
  location : String
  coordinates : Option Coordinates
  radius_miles : ℚ
  facility_counts : List (String × ℕ)
  total_facilities : ℕ
  top_facilities : List FacilityInfo
  water_systems : List WaterSystem
  water_violations : List WaterViolation
  total_violations : ℕ
  chemical_releases : ReleaseSummary
  hazardous_sites : List FacilityInfo
  total_hazardous_sites : ℕ
  summary_stats : SummaryStats
  query_timestamp : Option String
  data_sources : List String
deriving DecidableEq, Repr

/-- Model of `format_environmental_summary`.  `now` stands for
`datetime.utcnow().isoformat()`. -/
def format_environmental_summary (location : String)
    (coordinates : Option Coordinates) (radius_miles : ℚ)
    (facilities : List FacilityInfo) (water_systems : List WaterSystem)
    (water_violations : List WaterViolation)
    (chemical_releases : List ChemicalRelease)
    (hazardous_sites : List FacilityInfo) (now : String) :
    EnvironmentalSummary :=
  let facility_counts := facilities.foldl
    (fun m f => f.programs.foldl (fun m2 p => dictAddN m2 p.value 1) m) []
  let active_violations := water_violations.filter (·.is_current)
  { location := location,
    coordinates := coordinates,
    radius_miles := radius_miles,
    facility_counts := facility_counts,
    total_facilities := facilities.length,
    top_facilities := facilities.take 50,
    water_systems := water_systems,
    water_violations := active_violations,
    total_violations := active_violations.length,
    chemical_releases := summarize_releases chemical_releases,
    hazardous_sites := hazardous_sites,
    total_hazardous_sites := hazardous_sites.length,
    summary_stats :=
      { search_radius_miles := radius_miles,
        total_population_served :=
          (water_systems.map (fun ws => ws.population_served.getD 0)).sum,
        active_violation_count := active_violations.length,
        facilities_with_releases :=
          (chemical_releases.map (·.facility_id)).dedup.length,
        unique_chemicals :=
          (chemical_releases.map (·.chemical_name)).dedup.length,
        hazardous_waste_sites := hazardous_sites.length },
    query_timestamp := some now,
    data_sources := ["FRS", "TRI", "SDWIS", "RCRA"] }

/-- Unpack one `asyncio.gather(..., return_exceptions=True)` branch result:
`results[i] if not isinstance(results[i], Exception) else []`. -/
def unpackBranch {α : Type} : Except String (List α) → List α
  | .ok l => l
  | .error _ => []

/-- The fallback loops of `get_environmental_summary_by_location`: a facility
without coordinates but in the queried state gets `distance_miles = None` and
is appended to the filtered list unless already present. -/
def includeNoCoords (orig filtered : List FacilityInfo) (state_code : String) :
    List FacilityInfo :=
  orig.foldl (fun acc f =>
    if f.coordinates = none ∧ f.state = some state_code then
      if { f with distance_miles := none } ∈ acc then acc
      else acc ++ [{ f with distance_miles := none }]
    else acc) filtered

/-- The water-system filtering loop of
`get_environmental_summary_by_location`: systems with coordinates are kept
when within the radius (with their distance recorded); systems without
coordinates are kept when in the queried state. -/
def filterWaterSystems (dist : Coordinates → Coordinates → ℚ)
    (water_systems : List WaterSystem) (coords : Coordinates) (radius : ℚ)
    (state_code : String) : List WaterSystem :=
  water_systems.foldl (fun acc s =>
    match s.coordinates with
    | some c =>
        if dist coords c ≤ radius then
          acc ++ [{ s with distance_miles := some (dist coords c) }]
        else acc
    | none =>
        if s.state = some state_code then acc ++ [{ s with distance_miles := none }]
        else acc) []

/-- Model of steps 2–6 of `get_environmental_summary_by_location` (everything
after geocoding): the five parallel state-scoped branch outcomes of
`asyncio.gather(..., return_exceptions=True)` are passed in as `Except`
values — FRS facilities, TRI facilities, TRI releases, water systems, RCRA
sites — each unpacked to `[]` on failure; the water-violation query is
disabled in the source and always `[]`.  `dist` stands for
`haversine_distance`, `now` for the query timestamp. -/
def get_environmental_summary_by_location
    (dist : Coordinates → Coordinates → ℚ)
    (location : String) (radius_miles : ℚ)
    (coordinates : Coordinates) (state_code : String) (now : String)
    (frs_result tri_result : Except String (List FacilityInfo))
    (rel_result : Except String (List ChemicalRelease))
    (ws_result : Except String (List WaterSystem))
    (rcra_result : Except String (List FacilityInfo)) :
    EnvironmentalSummary :=
  let frs_facilities := unpackBranch frs_result
  let tri_facilities := unpackBranch tri_result
  let tri_releases := unpackBranch rel_result
  let water_systems := unpackBranch ws_result
  let water_violations : List WaterViolation := []
  let rcra_sites := unpackBranch rcra_result
  let filtered_frs := includeNoCoords frs_facilities
    (filter_by_distance dist frs_facilities coordinates radius_miles) state_code
  let filtered_tri := includeNoCoords tri_facilities
    (filter_by_distance dist tri_facilities coordinates radius_miles) state_code
  let filtered_rcra := includeNoCoords rcra_sites
    (filter_by_distance dist rcra_sites coordinates radius_miles) state_code
  let filtered_water_systems :=
    filterWaterSystems dist water_systems coordinates radius_miles state_code
  let all_facilities := aggregate_facilities
    filtered_frs filtered_tri filtered_rcra filtered_water_systems
  let top_facilities := rank_facilities all_facilities 50
  format_environmental_summary location (some coordinates) radius_miles
    top_facilities filtered_water_systems water_violations tri_releases
    filtered_rcra now

/-- C3: each of the five parallel branches is failure-isolated — a branch
that raises yields exactly the same `EnvironmentalSummary` as that branch
returning the empty list, so the call still returns a populated summary with
the failing branch's contribution empty; in particular a failing
TRI-releases branch yields the all-zero release summary, a failing SDWIS
branch yields no water systems, and a failing RCRA branch yields no
hazardous sites.  (The model is a total function: the post-gather code path
cannot raise.) -/
theorem location_summary_branch_isolation
    (dist : Coordinates → Coordinates → ℚ)
    (location : String) (radius_miles : ℚ) (coordinates : Coordinates)
    (state_code : String) (now : String)
    (frs_result tri_result : Except String (List FacilityInfo))
    (rel_result : Except String (List ChemicalRelease))
    (ws_result : Except String (List WaterSystem))
    (rcra_result : Except String (List FacilityInfo)) (e : String) :
    (get_environmental_summary_by_location dist location radius_miles
        coordinates state_code now (.error e) tri_result rel_result
        ws_result rcra_result
      = get_environmental_summary_by_location dist location radius_miles
        coordinates state_code now (.ok []) tri_result rel_result
        ws_result rcra_result) ∧
    (get_environmental_summary_by_location dist location radius_miles
        coordinates state_code now frs_result (.error e) rel_result
        ws_result rcra_result
      = get_environmental_summary_by_location dist location radius_miles
        coordinates state_code now frs_result (.ok []) rel_result
        ws_result rcra_result) ∧
    (get_environmental_summary_by_location dist location radius_miles
        coordinates state_code now frs_result tri_result (.error e)
        ws_result rcra_result
      = get_environmental_summary_by_location dist location radius_miles
        coordinates state_code now frs_result tri_result (.ok [])
        ws_result rcra_result) ∧
    (get_environmental_summary_by_location dist location radius_miles
        coordinates state_code now frs_result tri_result rel_result
        (.error e) rcra_result
      = get_environmental_summary_by_location dist location radius_miles
        coordinates state_code now frs_result tri_result rel_result
        (.ok []) rcra_result) ∧
    (get_environmental_summary_by_location dist location radius_miles
        coordinates state_code now frs_result tri_result rel_result
        ws_result (.error e)
      = get_environmental_summary_by_location dist location radius_miles
        coordinates state_code now frs_result tri_result rel_result
        ws_result (.ok [])) ∧
    ((get_environmental_summary_by_location dist location radius_miles
        coordinates state_code now frs_result tri_result (.error e)
        ws_result rcra_result).chemical_releases
      = summarize_releases []) ∧
    ((get_environmental_summary_by_location dist location radius_miles
        coordinates state_code now frs_result tri_result rel_result
        (.error e) rcra_result).water_systems = []) ∧
    ((get_environmental_summary_by_location dist location radius_miles
        coordinates state_code now frs_result tri_result rel_result
        ws_result (.error e)).hazardous_sites = []) :=
  ⟨rfl, rfl, rfl, rfl, rfl, rfl, rfl, rfl⟩

end Envirofacts
